import Mathlib

/-
Verification of the StudyFlow assistant pipeline (src/bookmarklet/studyflow.js).

The development shallowly embeds the pure core of the bookmarklet:
the classification rules (`shouldSkip`), the record extractor
(`scanLiveTodo` with its primary and secondary selector passes), the
generation client (`callGeminiDirect` / `callOpenRouter` / `callLLM`)
over an explicit model of fetch outcomes, and the main orchestration
(per-record loop, pacing, status events, and the credential guard).

JS strings are modelled as Lean `String` (whose logical model is a list
of characters); the handful of `String.prototype` operations used by the
source (`includes`, `toLowerCase`, `trim`, `split("\n")`, `startsWith`)
are defined below over character lists so that every definition is
executable and kernel-reducible.  DOM access is modelled by passing the
relevant page snapshot data (matched anchors with their resolved card
text, matched secondary items) as explicit inputs.
-/

namespace StudyFlow

/-- The JS whitespace class used by `\s` in regular expressions and by
`String.prototype.trim`: the ASCII whitespace characters plus NBSP.
These cover every character that occurs in the embedded code base. -/
def isJsWs (c : Char) : Bool :=
  c = ' ' || c = '\t' || c = '\n' || c = '\r' || c = '\x0b' || c = '\x0c' || c = ' '

/-- ASCII lower-casing of one character, how `String.prototype.toLowerCase`
acts on the ASCII range (all string constants in the source are ASCII). -/
def lowerChar (c : Char) : Char :=
  if 'A' ≤ c && c ≤ 'Z' then Char.ofNat (c.toNat + 32) else c

/-- `String.prototype.toLowerCase`. -/
def lowerStr (s : String) : String := String.mk (s.data.map lowerChar)

/-- `containsList pat s` is true iff `pat` occurs contiguously in `s`. -/
def containsList (pat : List Char) : List Char → Bool
  | [] => pat.isEmpty
  | c :: t => pat.isPrefixOf (c :: t) || containsList pat t

/-- `s.includes(pat)` (JS `String.prototype.includes`). -/
def containsS (s pat : String) : Bool := containsList pat.data s.data

/-- `String.prototype.split("\n")` on the character list; split on every
newline, keeping empty segments, and `[""]` for the empty string. -/
def splitNl : List Char → List (List Char)
  | [] => [[]]
  | c :: t =>
    if c = '\n' then [] :: splitNl t
    else
      match splitNl t with
      | [] => [[c]]
      | h :: r => (c :: h) :: r

/-- Drop trailing JS whitespace. -/
def dropRightWs (l : List Char) : List Char := (l.reverse.dropWhile isJsWs).reverse

/-- Drop leading and trailing JS whitespace. -/
def trimList (l : List Char) : List Char := dropRightWs (l.dropWhile isJsWs)

/-- `String.prototype.trim`. -/
def jsTrim (s : String) : String := String.mk (trimList s.data)

/-- JS `a || b` on strings: `b` when `a` is the empty string (falsy). -/
def jsOrStr (a b : String) : String := if a = "" then b else a

/-! ## Classification rules (`IGNORE_COURSES`, `IGNORE_TYPES`, `APUSH_RE`, `shouldSkip`) -/

/-- `IGNORE_COURSES` from the source. -/
def IGNORE_COURSES : List String :=
  ["fbla", "deca", "speech & debate", "honor society", "nhs",
   "sat prep", "sat math", "math honor"]

/-- `IGNORE_TYPES` from the source. -/
def IGNORE_TYPES : List String := ["leq", "dbq", "mcq", "saq", "frq"]

/-- Matcher for the first alternative `ap\s*u\.?s\.?\s*hist` of `APUSH_RE`,
anchored at the head of `s` (already lower-cased).  A `\s*` followed by a
non-space literal and a `\.?` followed by a non-dot literal are
deterministic, so greedy consumption is exact. -/
def apushBranch1At (s : List Char) : Bool :=
  match s with
  | 'a' :: 'p' :: r0 =>
    match r0.dropWhile isJsWs with
    | 'u' :: r1 =>
      match (match r1 with | '.' :: t => t | _ => r1) with
      | 's' :: r2 =>
        let r3 := match r2 with | '.' :: t => t | _ => r2
        ['h', 'i', 's', 't'].isPrefixOf (r3.dropWhile isJsWs)
      | _ => false
    | _ => false
  | _ => false

/-- Either alternative of `APUSH_RE` anchored at the head of `s`. -/
def apushAt (s : List Char) : Bool :=
  apushBranch1At s || ['a', 'p', 'u', 's', 'h'].isPrefixOf s

/-- Does `APUSH_RE` match at some position of the character list? -/
def apushAnyAux : List Char → Bool
  | [] => false
  | c :: t => apushAt (c :: t) || apushAnyAux t

/-- `APUSH_RE.test(s)`: the case-insensitive regex
`/ap\s*u\.?s\.?\s*hist|apush/i` matches somewhere in `s`. -/
def apushTest (s : String) : Bool := apushAnyAux (lowerStr s).data

/-- The JS regex word character class `\w`, that is `[A-Za-z0-9_]`. -/
def isWordChar (c : Char) : Bool := c.isAlphanum || c = '_'

/-- Does `pat` occur in the remaining text at a position bounded by word
boundaries on both sides?  `prev` is the character immediately before the
current position (`none` at the start).  The tokens tested are nonempty,
so no match can start at the very end of the text. -/
def wordBdAux (pat : List Char) (prev : Option Char) : List Char → Bool
  | [] => false
  | c :: t =>
    (pat.isPrefixOf (c :: t)
      && (match prev with | none => true | some p => !isWordChar p)
      && (match (c :: t).drop pat.length with
          | [] => true
          | d :: _ => !isWordChar d))
    || wordBdAux pat (some c) t

/-- `new RegExp("\\b" + t + "\\b", "i").test(s)`: case-insensitive
whole-word occurrence of the token `t` in `s`. -/
def wordRegexTest (t : String) (s : String) : Bool :=
  wordBdAux (lowerStr t).data none (lowerStr s).data

/-- `shouldSkip(title, course)` from the source: three short-circuiting
rules over the lower-cased combined string and the raw title. -/
def shouldSkip (title course : String) : Bool :=
  let combined := lowerStr (title ++ " " ++ course)
  if IGNORE_COURSES.any (fun c => containsS combined c) then true
  else if apushTest combined then true
  else if IGNORE_TYPES.any (fun t => wordRegexTest t title) then true
  else false

/-- Rule 1 of `shouldSkip` in isolation: some ignored-course substring
occurs in the lower-cased concatenation of title and course. -/
def courseRule (title course : String) : Bool :=
  IGNORE_COURSES.any (fun c => containsS (lowerStr (title ++ " " ++ course)) c)

/-- Rule 2 of `shouldSkip` in isolation: `APUSH_RE` matches the
lower-cased concatenation of title and course. -/
def apushRule (title course : String) : Bool :=
  apushTest (lowerStr (title ++ " " ++ course))

/-- Rule 3 of `shouldSkip` in isolation: some ignored assignment-type
token occurs as a whole word in the title (the course is not consulted). -/
def typeRule (title _course : String) : Bool :=
  IGNORE_TYPES.any (fun t => wordRegexTest t title)

/-- The three rule outcomes of `shouldSkip`, in source order. -/
def skipRules (title course : String) : List Bool :=
  [courseRule title course, apushRule title course, typeRule title course]

/-! ## Record extractor (`scanLiveTodo`)

The DOM is modelled by its relevant projections: an anchor element is its
`href` attribute (absent when the attribute is missing) together with the
inner text of the card resolved for it by
`link.closest("[data-assignment-id]") || link.closest("li") ||
link.parentElement?.parentElement` (that resolution is lexical DOM
navigation with no logic of its own, so the resolved text is an input);
a secondary item carries its `innerText` and, when
`item.querySelector` with the detail-anchor selector finds an anchor,
the `href` attribute of that anchor. -/

/-- One anchor from the live page, as seen by the primary pass. -/
structure Anchor where
  href : Option String
  cardText : String
deriving DecidableEq

/-- One element matched by the secondary selector
`[class*="assignment"], [data-stream-item-id]`.  `detail` is `none`
when the element has no descendant anchor with `/details` in its href;
otherwise it holds the `href` attribute of that anchor (an `Option` again,
since `getAttribute` can return null). -/
structure Item where
  innerText : String
  detail : Option (Option String)
deriving DecidableEq

/-- A `CandidateRecord` as pushed onto `assignments`:
`{ title, course, url, text }`.  `srcHref` is a ghost field recording the
raw `href` the record was built from; it is not a field of the JS object
and is carried only to state the deduplication invariants. -/
structure Rec where
  title : String
  course : String
  url : String
  text : String
  srcHref : String
deriving DecidableEq

/-- The primary CSS selector `a[href*="/c/"][href*="/a/"][href*="/details"]`:
an anchor matches iff it has an `href` attribute containing all three
substrings. -/
def linkSel (a : Anchor) : Bool :=
  match a.href with
  | none => false
  | some h => containsS h "/c/" && containsS h "/a/" && containsS h "/details"

/-- `s.startsWith(pat)` (JS `String.prototype.startsWith`). -/
def startsWithS (s pat : String) : Bool := pat.data.isPrefixOf s.data

/-- Relative→absolute reference normalization:
`href.startsWith("http") ? href : "https://classroom.google.com" + href`. -/
def mkFullUrl (href : String) : String :=
  if startsWithS href "http" then href else "https://classroom.google.com" ++ href

/-- The course-line test of the primary pass:
`IGNORE_COURSES.some(c => line.toLowerCase().includes(c)) ||
line.includes("Block") || line.includes("Period")`. -/
def courseLineTest (line : String) : Bool :=
  IGNORE_COURSES.any (fun c => containsS (lowerStr line) c)
    || containsS line "Block" || containsS line "Period"

/-- Primary-pass lines: `text.split("\n").map(l => l.trim()).filter(l => l.length > 3)`. -/
def linesP (text : String) : List String :=
  ((splitNl text.data).map (fun l => String.mk (trimList l))).filter
    (fun l => l.length > 3)

/-- Secondary-pass lines: `text.split("\n").filter(l => l.trim().length > 3)`
(note: the kept lines are not themselves trimmed here). -/
def linesS (text : String) : List String :=
  ((splitNl text.data).map String.mk).filter (fun l => (jsTrim l).length > 3)

/-- The record the primary pass builds for one anchor (lines 163–183 of
the source), before the `shouldSkip` check. -/
def mkPrimaryRec (a : Anchor) : Rec :=
  let href := a.href.getD ""
  let text := jsTrim a.cardText
  let lines := linesP text
  let title := jsOrStr (lines.getD 0 "") "Unknown"
  let course := (lines.find? courseLineTest).getD ""
  { title := title, course := course, url := mkFullUrl href,
    text := text, srcHref := href }

/-- The record the secondary pass builds for one item with href `href`
(lines 190–200 of the source), before the seen/`shouldSkip` check. -/
def mkSecondaryRec (it : Item) (href : String) : Rec :=
  let text := jsTrim it.innerText
  let lines := linesS text
  let title := jsOrStr (lines.getD 0 "") "Unknown"
  { title := title, course := "", url := mkFullUrl href,
    text := text, srcHref := href }

/-- State of the scan: the JS `Set` `seen` (as a list of raw hrefs) and
the `assignments` array. -/
abbrev ScanState := List String × List Rec

/-- Loop body of the primary pass: skip hrefs already seen or containing
`"not-turned-in"`; add the href to `seen` before the exclusion check;
push the record unless `shouldSkip` excludes it. -/
def primaryStep (st : ScanState) (a : Anchor) : ScanState :=
  let href := a.href.getD ""
  if st.1.contains href || containsS href "not-turned-in" then st
  else
    let seen := href :: st.1
    let r := mkPrimaryRec a
    if shouldSkip r.title r.course then (seen, st.2) else (seen, st.2 ++ [r])

/-- The primary pass over the selector-matched anchors, with empty
initial state. -/
def primaryPass (links : List Anchor) : ScanState :=
  links.foldl primaryStep ([], [])

/-- Loop body of the secondary pass: only items with a detail anchor are
considered; the shared `seen` set is consulted before pushing, and
`shouldSkip` receives the full item text as the course argument. -/
def secondaryStep (st : ScanState) (it : Item) : ScanState :=
  match it.detail with
  | none => st
  | some hrefAttr =>
    let href := hrefAttr.getD ""
    let r := mkSecondaryRec it href
    if !st.1.contains href && !shouldSkip r.title (jsTrim it.innerText) then
      (href :: st.1, st.2 ++ [r])
    else st

/-- The secondary pass, seeded with the seen set left by the primary
pass and an empty record list (it only runs when the primary pass
produced no records). -/
def secondaryPass (items : List Item) (seen0 : List String) : ScanState :=
  items.foldl secondaryStep (seen0, [])

/-- The location guard of `scanLiveTodo`: proceed iff the current URL
contains `"/a/not-turned-in"` or `"/a/"`. -/
def locOk (loc : String) : Bool :=
  containsS loc "/a/not-turned-in" || containsS loc "/a/"

/-- `scanLiveTodo`: `none` models the `return null` redirect branch;
otherwise the primary pass runs over the selector-matched anchors and,
only when it produced zero records, the secondary pass runs over the
secondary-selector items sharing the same seen set. -/
def scanLiveTodo (loc : String) (anchors : List Anchor) (items : List Item) :
    Option (List Rec) :=
  if locOk loc then
    some
      (if (primaryPass (anchors.filter linkSel)).2.length == 0
       then (secondaryPass items (primaryPass (anchors.filter linkSel)).1).2
       else (primaryPass (anchors.filter linkSel)).2)
  else none

/-! ## Generation client (`callLLM`, `callGeminiDirect`, `callOpenRouter`)

One outbound request is modelled by its externally determined outcome:
either the fetch promise rejects (network failure), or a response arrives
with a success flag, a flag telling whether `resp.json()` parses, and the
text found at the provider-specific payload path
(`data?.candidates?.[0]?.content?.parts?.[0]?.text` for Gemini,
`data?.choices?.[0]?.message?.content` for OpenRouter) — `none` when the
optional-chaining path is absent.  The environment maps the varying part
of the request (the endpoint URL for the direct client, the model name
for OpenRouter) to such an outcome. -/

/-- Outcome of one `fetch` as the client observes it. -/
inductive FetchOutcome where
  | netError (msg : String)
  | resp (ok : Bool) (jsonOk : Bool) (text : Option String)
deriving DecidableEq

/-- `GEMINI_URL` as a function of the configured key. -/
def geminiUrl (key : String) : String :=
  "https://generativelanguage.googleapis.com/v1beta/models/gemini-2.0-flash:generateContent?key=" ++ key

/-- `GEMINI_FALLBACK` as a function of the configured key. -/
def geminiFallbackUrl (key : String) : String :=
  "https://generativelanguage.googleapis.com/v1beta/models/gemma-3-1b-it:generateContent?key=" ++ key

/-- The ordered endpoint list `[GEMINI_URL, GEMINI_FALLBACK]`. -/
def geminiEndpoints (key : String) : List String :=
  [geminiUrl key, geminiFallbackUrl key]

/-- The ordered OpenRouter model list. -/
def openRouterModels : List String :=
  ["google/gemini-2.0-flash-exp:free", "google/gemma-3-1b-it:free"]

/-- The body of one loop iteration of `callGeminiDirect` (the inside of
its `try`), as an `Except`: `.error` marks a thrown exception (rejected
fetch or failed `resp.json()`), `.ok none` means fall through to the next
endpoint, `.ok (some t)` means return the trimmed text `t`. -/
def geminiTry (o : FetchOutcome) : Except String (Option String) :=
  match o with
  | .netError m => .error m
  | .resp ok jsonOk text =>
    if !ok then .ok none
    else if !jsonOk then .error "json"
    else
      match text with
      | some t => if t ≠ "" && jsTrim t ≠ "" then .ok (some (jsTrim t)) else .ok none
      | none => .ok none

/-- One iteration with its `catch` applied: a thrown exception is logged
and the loop continues, i.e. the iteration yields nothing. -/
def geminiAttempt (o : FetchOutcome) : Option String :=
  match geminiTry o with
  | .ok r => r
  | .error _ => none

/-- The endpoint loop of `callGeminiDirect`: first non-empty trimmed text
wins, `none` when the list is exhausted. -/
def geminiLoop (env : String → FetchOutcome) : List String → Option String
  | [] => none
  | u :: rest =>
    match geminiAttempt (env u) with
    | some t => some t
    | none => geminiLoop env rest

/-- `callGeminiDirect(prompt)` for a configured key, given the network
environment for this call. -/
def callGeminiDirect (key : String) (env : String → FetchOutcome) : Option String :=
  geminiLoop env (geminiEndpoints key)

/-- The endpoint loop instrumented with the endpoint that produced the
returned text (ghost information used to state which provider was
used). -/
def geminiLoopTagged (env : String → FetchOutcome) :
    List String → Option (String × String)
  | [] => none
  | u :: rest =>
    match geminiAttempt (env u) with
    | some t => some (t, u)
    | none => geminiLoopTagged env rest

/-- `callGeminiDirect` with its result tagged by the originating
endpoint. -/
def callGeminiDirectTagged (key : String) (env : String → FetchOutcome) :
    Option (String × String) :=
  geminiLoopTagged env (geminiEndpoints key)

/-- The body of one loop iteration of `callOpenRouter` (the inside of its
`try`); structurally identical to the Gemini iteration, the
provider-specific payload path being absorbed into `FetchOutcome`. -/
def orTry (o : FetchOutcome) : Except String (Option String) :=
  match o with
  | .netError m => .error m
  | .resp ok jsonOk text =>
    if !ok then .ok none
    else if !jsonOk then .error "json"
    else
      match text with
      | some t => if t ≠ "" && jsTrim t ≠ "" then .ok (some (jsTrim t)) else .ok none
      | none => .ok none

/-- One OpenRouter iteration with its `catch` applied. -/
def orAttempt (o : FetchOutcome) : Option String :=
  match orTry o with
  | .ok r => r
  | .error _ => none

/-- The model loop of `callOpenRouter`. -/
def orLoop (env : String → FetchOutcome) : List String → Option String
  | [] => none
  | m :: rest =>
    match orAttempt (env m) with
    | some t => some t
    | none => orLoop env rest

/-- `callOpenRouter(prompt)` given the network environment for this
call (keyed by model name; the key only feeds the auth header). -/
def callOpenRouter (_key : String) (env : String → FetchOutcome) : Option String :=
  orLoop env openRouterModels

/-- `callLLM(prompt)`: dispatch on `API_MODE`. -/
def callLLM (mode key : String) (envG envO : String → FetchOutcome) : Option String :=
  if mode == "openrouter" then callOpenRouter key envO else callGeminiDirect key envG

/-- The Gemini endpoint loop with exceptions made explicit: the `catch`
inside the loop absorbs a thrown iteration and continues, so the loop
itself can only terminate normally. -/
def geminiLoopE (env : String → FetchOutcome) :
    List String → Except String (Option String)
  | [] => .ok none
  | u :: rest =>
    match geminiTry (env u) with
    | .ok (some t) => .ok (some t)
    | .ok none => geminiLoopE env rest
    | .error _ => geminiLoopE env rest

/-- The OpenRouter model loop with exceptions made explicit. -/
def orLoopE (env : String → FetchOutcome) :
    List String → Except String (Option String)
  | [] => .ok none
  | m :: rest =>
    match orTry (env m) with
    | .ok (some t) => .ok (some t)
    | .ok none => orLoopE env rest
    | .error _ => orLoopE env rest

/-- `callLLM` with exceptions made explicit. -/
def callLLME (mode key : String) (envG envO : String → FetchOutcome) :
    Except String (Option String) :=
  if mode == "openrouter" then orLoopE envO openRouterModels
  else geminiLoopE envG (geminiEndpoints key)

/-- An endpoint interaction counts as failed when the fetch rejects, the
response status is non-success, or the extracted payload text is absent,
unparsable, empty or whitespace-only. -/
def endpointFailed (o : FetchOutcome) : Bool :=
  match o with
  | .netError _ => true
  | .resp ok jsonOk text =>
    !ok || !jsonOk ||
      (match text with
       | none => true
       | some t => jsTrim t == "")

/-! ## Orchestration (`main` IIFE)

The operator-visible behaviour of the main IIFE is modelled as the list
of events it emits in order: status-line updates, per-record result
blocks, generation calls and pacing delays.  The literal status strings
of the source are kept; status lines with interpolated values are carried
structurally. -/

/-- One observable step of the main IIFE. -/
inductive Ev where
  | status (msg : String)
  | statusFound (n : Nat)
  | starting (i n : Nat) (title : String)
  | header (i : Nat) (title course : String)
  | genCall (title : String)
  | draftOk (draft : String)
  | draftFail
  | delay
  | statusDone (n : Nat)
  | emptyHint
  | finalHint
deriving DecidableEq

/-- Events of one iteration of the per-record loop for record `a` at
index `i` of `n` records: the `[i+1/n] Drafting:` status, the result
block header, the generation call, the outcome (draft text or failure
marker), then the 2-second pacing delay unless this is the last record. -/
def recordEvents (n : Nat) (gen : Rec → Option String) (i : Nat) (a : Rec) : List Ev :=
  [Ev.starting (i + 1) n a.title, Ev.header (i + 1) a.title a.course, Ev.genCall a.title]
    ++ (match gen a with
        | some d => [Ev.draftOk d]
        | none => [Ev.draftFail])
    ++ (if i < n - 1 then [Ev.delay] else [])

/-- The per-record loop `for (let i = 0; i < assignments.length; i++)`,
started at index `i`. -/
def loopFrom (n : Nat) (gen : Rec → Option String) : Nat → List Rec → List Ev
  | _, [] => []
  | i, a :: rest => recordEvents n gen i a ++ loopFrom n gen (i + 1) rest

/-- The whole per-record loop over the surviving records. -/
def mainLoop (as : List Rec) (gen : Rec → Option String) : List Ev :=
  loopFrom as.length gen 0 as

/-- Status line of the redirect branch. -/
def redirectMsg : String :=
  "Redirecting to To-do page... Click bookmarklet again after page loads."

/-- Status line of the empty-result branch. -/
def noneFoundMsg : String :=
  "No assignments found. Make sure you\x27re on the To-do page."

/-- Status line of the missing-key branch. -/
def noKeyMsg : String :=
  "ERROR: No API key. Re-create bookmarklet with your key."

/-- Status line emitted at the start of `scanLiveTodo`. -/
def scanningMsg : String := "Scanning To-do page..."

/-- The main flow from the scan result on (source lines 317–363):
redirect notice, empty-result report with its actionable hint, or the
per-record loop framed by the found/done status lines. -/
def mainAfterScan (scanRes : Option (List Rec)) (gen : Rec → Option String) : List Ev :=
  match scanRes with
  | none => [Ev.status redirectMsg]
  | some as =>
    if as.length == 0 then [Ev.status noneFoundMsg, Ev.emptyHint]
    else
      Ev.statusFound as.length ::
        (mainLoop as gen ++ [Ev.statusDone as.length, Ev.finalHint])

/-- The constant bindings in scope inside the bookmarklet IIFE that a
bare identifier can resolve to (name, value). -/
def bookmarkletScope (key mode : String) : List (String × String) :=
  [("API_KEY", key), ("API_MODE", mode),
   ("GEMINI_URL", geminiUrl key), ("GEMINI_FALLBACK", geminiFallbackUrl key),
   ("OPENROUTER_URL", "https://openrouter.ai/api/v1/chat/completions")]

/-- Evaluation of a bare identifier: a name bound in scope yields its
value; an unbound name throws a `ReferenceError` whose message is
`"<name> is not defined"`. -/
def scopeLookup (scope : List (String × String)) (name : String) :
    Except String String :=
  match scope.find? (fun p => p.1 == name) with
  | some p => .ok p.2
  | none => .error (name ++ " is not defined")

/-- The credential guard at source line 312, as written: it reads the
identifier `GEMINI_KEY` (not the declared constant `API_KEY`) and, if
that evaluates, tests falsiness or equality with the placeholder. -/
def mainGuard (key mode : String) : Except String Bool := do
  let v ← scopeLookup (bookmarkletScope key mode) "GEMINI_KEY"
  pure (v == "" || v == "%%GEMINI_KEY%%")

/-- The main IIFE: the `try` body runs the guard and then the pipeline;
the `catch` at source line 365 renders `"Error: " + err.message` as the
status line. -/
def mainRun (key mode loc : String) (anchors : List Anchor) (items : List Item)
    (gen : Rec → Option String) : List Ev :=
  match mainGuard key mode with
  | .error e => [Ev.status ("Error: " ++ e)]
  | .ok true => [Ev.status noKeyMsg]
  | .ok false =>
    Ev.status scanningMsg :: mainAfterScan (scanLiveTodo loc anchors items) gen

/-- Recognizer for pacing-delay events. -/
def isDelay : Ev → Bool
  | .delay => true
  | _ => false

/-- Recognizer for generation-call events. -/
def isGenCall : Ev → Bool
  | .genCall _ => true
  | _ => false

/-- Projection of a `starting record i of n` status event. -/
def evStarting : Ev → Option (Nat × Nat × String)
  | .starting i n t => some (i, n, t)
  | _ => none

/-- Projection of a per-record result block header. -/
def evHeader : Ev → Option (Nat × String × String)
  | .header i t c => some (i, t, c)
  | _ => none

/-- Projection of a per-record outcome (the draft text on success). -/
def evDraft : Ev → Option (Option String)
  | .draftOk d => some (some d)
  | .draftFail => some none
  | _ => none

/-! ## Helper lemmas -/

/-- `List.dropWhile` is idempotent. -/
theorem dropWhile_dropWhile (p : Char → Bool) (l : List Char) :
    (l.dropWhile p).dropWhile p = l.dropWhile p := by
  induction l with
  | nil => rfl
  | cons c t ih =>
    by_cases h : p c
    · simp [List.dropWhile, h, ih]
    · simp [List.dropWhile, h]

/-- The head of a `dropWhile p` result does not satisfy `p`. -/
theorem dropWhile_head_not (p : Char → Bool) (l : List Char) (c : Char)
    (t : List Char) (h : l.dropWhile p = c :: t) : p c = false := by
  induction l with
  | nil => simp at h
  | cons a as ih =>
    by_cases ha : p a
    · exact ih (by simpa [List.dropWhile, ha] using h)
    · simp only [List.dropWhile, ha] at h
      cases h
      simpa using ha

/-- `dropRightWs` yields a prefix of its argument. -/
theorem dropRightWs_isPrefix (l : List Char) : (dropRightWs l) <+: l := by
  have h := List.dropWhile_suffix (l := l.reverse) (p := isJsWs)
  have h2 := h.reverse
  simpa [dropRightWs] using h2

/-- Dropping leading whitespace from a right-trimmed, already
left-trimmed list does nothing. -/
theorem dropWhile_dropRightWs (l : List Char) :
    (dropRightWs (l.dropWhile isJsWs)).dropWhile isJsWs
      = dropRightWs (l.dropWhile isJsWs) := by
  cases hd : dropRightWs (l.dropWhile isJsWs) with
  | nil => rfl
  | cons c t =>
    have hpre : (c :: t) <+: l.dropWhile isJsWs := hd ▸ dropRightWs_isPrefix _
    obtain ⟨u, hu⟩ := hpre
    have hu' : List.dropWhile isJsWs l = c :: (t ++ u) := by
      rw [← hu]; simp
    have hc : isJsWs c = false := dropWhile_head_not isJsWs l c (t ++ u) hu'
    simp [List.dropWhile, hc]

/-- `trimList` is idempotent. -/
theorem trimList_trimList (l : List Char) : trimList (trimList l) = trimList l := by
  unfold trimList
  rw [dropWhile_dropRightWs]
  unfold dropRightWs
  rw [List.reverse_reverse, dropWhile_dropWhile, ← dropRightWs]

/-- `jsTrim` is idempotent. -/
theorem jsTrim_jsTrim (s : String) : jsTrim (jsTrim s) = jsTrim s := by
  simp [jsTrim, trimList_trimList]

/-- `shouldSkip` computes the disjunction of its three rules. -/
theorem shouldSkip_eq_rules (title course : String) :
    shouldSkip title course
      = (courseRule title course || apushRule title course || typeRule title course) := by
  simp only [shouldSkip, courseRule, apushRule, typeRule]
  cases IGNORE_COURSES.any (fun c => containsS (lowerStr (title ++ " " ++ course)) c) <;>
    cases apushTest (lowerStr (title ++ " " ++ course)) <;>
      cases IGNORE_TYPES.any (fun t => wordRegexTest t title) <;> simp

/-! ## Claim theorems -/

/-- C1 (code bug): whatever provider key and mode are configured — genuine
key included — the main IIFE aborts before any pipeline step with the
status line `Error: GEMINI_KEY is not defined`: the credential guard reads
the unbound identifier `GEMINI_KEY` instead of the declared constant
`API_KEY`, so it throws a `ReferenceError` that the outer `catch` renders.
The claim says a genuine key passes the check and the run proceeds to
discovery; the code never reaches discovery. -/
theorem c1_guard_reference_error (key mode loc : String) (anchors : List Anchor)
    (items : List Item) (gen : Rec → Option String) :
    mainGuard key mode = Except.error "GEMINI_KEY is not defined" ∧
    mainRun key mode loc anchors items gen
      = [Ev.status "Error: GEMINI_KEY is not defined"] := by
  constructor
  · rfl
  · rfl

/-- C7: `shouldSkip "AP U.S. History DBQ #3" ""` is `true`; the
ignored-course substring rule does not fire, the `APUSH_RE` subject rule
fires (so by `shouldSkip_eq_rules` the result is `true` independently of
the assignment-type rule), and the assignment-type rule also fires on the
`DBQ` token. -/
theorem c7_apush_scenario :
    shouldSkip "AP U.S. History DBQ #3" "" = true ∧
    courseRule "AP U.S. History DBQ #3" "" = false ∧
    apushRule "AP U.S. History DBQ #3" "" = true ∧
    typeRule "AP U.S. History DBQ #3" "" = true := by
  refine ⟨by decide, by decide, by decide, by decide⟩

/-- C9: `shouldSkip` equals the unordered disjunction of its three rule
predicates — any permutation of the rule outcomes has the same
disjunction, so the rule order only affects which rule short-circuits,
never the final boolean (and the function is a pure function of its two
string arguments, hence deterministic). -/
theorem c9_rule_order (title course : String) (l : List Bool)
    (hp : l.Perm (skipRules title course)) :
    l.any (fun b => b) = shouldSkip title course := by
  have hmain : (skipRules title course).any (fun b => b) = shouldSkip title course := by
    rw [shouldSkip_eq_rules]
    simp [skipRules, Bool.or_assoc]
  rw [← hmain]
  cases hA : (skipRules title course).any (fun b => b) with
  | true =>
    obtain ⟨x, hx, hfx⟩ := List.any_eq_true.mp hA
    exact List.any_eq_true.mpr ⟨x, hp.mem_iff.mpr hx, hfx⟩
  | false =>
    cases hB : l.any (fun b => b) with
    | false => rfl
    | true =>
      exfalso
      obtain ⟨x, hx, hfx⟩ := List.any_eq_true.mp hB
      have hcontra : (skipRules title course).any (fun b => b) = true :=
        List.any_eq_true.mpr ⟨x, hp.mem_iff.mp hx, hfx⟩
      rw [hA] at hcontra
      exact Bool.noConfusion hcontra

/-- Witness for C9 at a concrete title whose first rule fires: the
reversed rule list is a permutation and its disjunction still equals
`shouldSkip`. -/
theorem c9_rule_order_witness :
    ([false, false, true] : List Bool).Perm (skipRules "FBLA meeting" "") ∧
    ([false, false, true] : List Bool).any (fun b => b) = shouldSkip "FBLA meeting" "" :=
  ⟨by decide, c9_rule_order "FBLA meeting" "" [false, false, true] (by decide)⟩

/-- The explicit-exception Gemini loop never escapes with an exception
and agrees with the plain loop: the `catch` sits inside the loop body. -/
theorem geminiLoopE_eq (env : String → FetchOutcome) (us : List String) :
    geminiLoopE env us = Except.ok (geminiLoop env us) := by
  induction us with
  | nil => rfl
  | cons u rest ih =>
    simp only [geminiLoopE, geminiLoop, geminiAttempt]
    cases h : geminiTry (env u) with
    | error e => simpa using ih
    | ok r =>
      cases r with
      | none => simpa using ih
      | some t => rfl

/-- The explicit-exception OpenRouter loop never escapes with an
exception and agrees with the plain loop. -/
theorem orLoopE_eq (env : String → FetchOutcome) (ms : List String) :
    orLoopE env ms = Except.ok (orLoop env ms) := by
  induction ms with
  | nil => rfl
  | cons m rest ih =>
    simp only [orLoopE, orLoop, orAttempt]
    cases h : orTry (env m) with
    | error e => simpa using ih
    | ok r =>
      cases r with
      | none => simpa using ih
      | some t => rfl

/-- A failed endpoint interaction yields nothing from a Gemini loop
iteration. -/
theorem endpointFailed_gemini_none (o : FetchOutcome)
    (h : endpointFailed o = true) : geminiAttempt o = none := by
  cases o with
  | netError m => rfl
  | resp ok jsonOk text =>
    cases ok with
    | false => rfl
    | true =>
      cases jsonOk with
      | false => rfl
      | true =>
        cases text with
        | none => rfl
        | some t =>
          simp only [endpointFailed, Bool.not_true, Bool.false_or] at h
          have ht : jsTrim t = "" := by simpa using h
          simp [geminiAttempt, geminiTry, ht]

/-- A failed endpoint interaction yields nothing from an OpenRouter loop
iteration. -/
theorem endpointFailed_or_none (o : FetchOutcome)
    (h : endpointFailed o = true) : orAttempt o = none := by
  cases o with
  | netError m => rfl
  | resp ok jsonOk text =>
    cases ok with
    | false => rfl
    | true =>
      cases jsonOk with
      | false => rfl
      | true =>
        cases text with
        | none => rfl
        | some t =>
          simp only [endpointFailed, Bool.not_true, Bool.false_or] at h
          have ht : jsTrim t = "" := by simpa using h
          simp [orAttempt, orTry, ht]

/-- When every endpoint fails, the Gemini loop is exhausted. -/
theorem geminiLoop_all_failed (env : String → FetchOutcome) (us : List String)
    (h : ∀ u ∈ us, endpointFailed (env u) = true) : geminiLoop env us = none := by
  induction us with
  | nil => rfl
  | cons u rest ih =>
    have ha := endpointFailed_gemini_none (env u) (h u (List.mem_cons_self u rest))
    simp only [geminiLoop, ha]
    exact ih (fun x hx => h x (List.mem_cons_of_mem u hx))

/-- When every model fails, the OpenRouter loop is exhausted. -/
theorem orLoop_all_failed (env : String → FetchOutcome) (ms : List String)
    (h : ∀ m ∈ ms, endpointFailed (env m) = true) : orLoop env ms = none := by
  induction ms with
  | nil => rfl
  | cons m rest ih =>
    have ha := endpointFailed_or_none (env m) (h m (List.mem_cons_self m rest))
    simp only [orLoop, ha]
    exact ih (fun x hx => h x (List.mem_cons_of_mem m hx))

/-- C4: `generate` (that is, `callLLM`) never throws to its caller — the
exception-explicit model always terminates normally with the plain
value of the plain model, because every throwing step (rejected fetch, failing
`resp.json()`) sits inside the per-endpoint `try`/`catch` — and when
every configured endpoint fails (network failure, non-success status, or
absent/unparsable/empty/whitespace-only extracted text) it returns
`none` rather than raising. -/
theorem c4_generate_total (mode key : String) (envG envO : String → FetchOutcome) :
    callLLME mode key envG envO = Except.ok (callLLM mode key envG envO) ∧
    ((∀ u ∈ geminiEndpoints key, endpointFailed (envG u) = true) →
      (∀ m ∈ openRouterModels, endpointFailed (envO m) = true) →
      callLLM mode key envG envO = none) := by
  constructor
  · unfold callLLM callLLME callGeminiDirect callOpenRouter
    cases h : mode == "openrouter" <;> simp [h, geminiLoopE_eq, orLoopE_eq]
  · intro hG hO
    unfold callLLM callGeminiDirect callOpenRouter
    cases h : mode == "openrouter" <;>
      simp [h, geminiLoop_all_failed envG _ hG, orLoop_all_failed envO _ hO]

/-- Gemini-mode environment for the C4 witness: every fetch rejects. -/
def c4EnvG : String → FetchOutcome := fun _ => FetchOutcome.netError "offline"

/-- OpenRouter environment for the C4 witness: every response has a
non-success status. -/
def c4EnvO : String → FetchOutcome := fun _ => FetchOutcome.resp false true none

/-- Witness for C4: with every endpoint failing, the call terminates
normally and returns `none`. -/
theorem c4_generate_total_witness :
    callLLME "gemini" "k" c4EnvG c4EnvO
        = Except.ok (callLLM "gemini" "k" c4EnvG c4EnvO) ∧
    callLLM "gemini" "k" c4EnvG c4EnvO = none :=
  ⟨(c4_generate_total "gemini" "k" c4EnvG c4EnvO).1,
   (c4_generate_total "gemini" "k" c4EnvG c4EnvO).2
     (fun _ _ => rfl) (fun _ _ => rfl)⟩

/-- C3: with the ordered endpoint list `[GEMINI_URL, GEMINI_FALLBACK]`,
when the request to the primary endpoint comes back with a non-success
status and the fallback endpoint responds successfully with parsable
payload text `t` that is non-empty after trimming, `callGeminiDirect`
returns `t` trimmed, and the provider used — the endpoint the returned
text originated from, recorded by the tagged client — is the fallback
endpoint. -/
theorem c3_fallback (key : String) (env : String → FetchOutcome)
    (jA : Bool) (tA : Option String) (t : String)
    (hA : env (geminiUrl key) = FetchOutcome.resp false jA tA)
    (hB : env (geminiFallbackUrl key) = FetchOutcome.resp true true (some t))
    (ht : jsTrim t ≠ "") :
    callGeminiDirect key env = some (jsTrim t) ∧
    callGeminiDirectTagged key env = some (jsTrim t, geminiFallbackUrl key) := by
  have htne : t ≠ "" := by
    intro hcontr
    subst hcontr
    exact ht (by decide)
  constructor
  · simp [callGeminiDirect, geminiEndpoints, geminiLoop, geminiAttempt, geminiTry,
      hA, hB, htne, ht]
  · simp [callGeminiDirectTagged, geminiEndpoints, geminiLoopTagged, geminiAttempt,
      geminiTry, hA, hB, htne, ht]

/-- Environment for the C3 witness: the primary endpoint returns a 4xx
response, the fallback returns text `" hello "`. -/
def c3EnvW : String → FetchOutcome := fun u =>
  if u = geminiFallbackUrl "k" then FetchOutcome.resp true true (some " hello ")
  else FetchOutcome.resp false true none

/-- Witness for C3 at a concrete environment. -/
theorem c3_fallback_witness :
    c3EnvW (geminiUrl "k") = FetchOutcome.resp false true none ∧
    c3EnvW (geminiFallbackUrl "k") = FetchOutcome.resp true true (some " hello ") ∧
    jsTrim " hello " ≠ "" ∧
    (callGeminiDirect "k" c3EnvW = some (jsTrim " hello ") ∧
      callGeminiDirectTagged "k" c3EnvW
        = some (jsTrim " hello ", geminiFallbackUrl "k")) :=
  ⟨by decide, by decide, by decide,
   c3_fallback "k" c3EnvW true none " hello " (by decide) (by decide) (by decide)⟩

/-- One loop iteration emits exactly one `starting` status event,
carrying its 1-based index, the total, and the title of the record. -/
theorem recordEvents_starting (n : Nat) (gen : Rec → Option String) (i : Nat) (a : Rec) :
    (recordEvents n gen i a).filterMap evStarting = [(i + 1, n, a.title)] := by
  cases hg : gen a <;> by_cases h : i < n - 1 <;>
    simp [recordEvents, hg, h, evStarting]

/-- One loop iteration emits exactly one result-block header. -/
theorem recordEvents_header (n : Nat) (gen : Rec → Option String) (i : Nat) (a : Rec) :
    (recordEvents n gen i a).filterMap evHeader = [(i + 1, a.title, a.course)] := by
  cases hg : gen a <;> by_cases h : i < n - 1 <;>
    simp [recordEvents, hg, h, evHeader]

/-- One loop iteration emits exactly one outcome event, success or
failure according to the generation result. -/
theorem recordEvents_draft (n : Nat) (gen : Rec → Option String) (i : Nat) (a : Rec) :
    (recordEvents n gen i a).filterMap evDraft = [gen a] := by
  cases hg : gen a <;> by_cases h : i < n - 1 <;>
    simp [recordEvents, hg, h, evDraft]

/-- One loop iteration emits one pacing delay exactly when it is not the
last iteration. -/
theorem recordEvents_delay (n : Nat) (gen : Rec → Option String) (i : Nat) (a : Rec) :
    (recordEvents n gen i a).countP isDelay = if i < n - 1 then 1 else 0 := by
  cases hg : gen a <;> by_cases h : i < n - 1 <;>
    simp [recordEvents, hg, h, isDelay]

/-- The loop tail starting at index `i` emits the `starting` events of
its records in order. -/
theorem loopFrom_starting (n : Nat) (gen : Rec → Option String) :
    ∀ (as : List Rec) (i : Nat),
      (loopFrom n gen i as).filterMap evStarting
        = (List.enumFrom i as).map (fun p => (p.1 + 1, n, p.2.title)) := by
  intro as
  induction as with
  | nil => intro i; rfl
  | cons a rest ih =>
    intro i
    simp only [loopFrom, List.filterMap_append, List.enumFrom, List.map_cons]
    rw [recordEvents_starting, ih (i + 1)]
    rfl

/-- The loop tail starting at index `i` emits the result-block headers of
its records in order. -/
theorem loopFrom_header (n : Nat) (gen : Rec → Option String) :
    ∀ (as : List Rec) (i : Nat),
      (loopFrom n gen i as).filterMap evHeader
        = (List.enumFrom i as).map (fun p => (p.1 + 1, p.2.title, p.2.course)) := by
  intro as
  induction as with
  | nil => intro i; rfl
  | cons a rest ih =>
    intro i
    simp only [loopFrom, List.filterMap_append, List.enumFrom, List.map_cons]
    rw [recordEvents_header, ih (i + 1)]
    rfl

/-- The loop tail starting at index `i` emits the per-record outcomes in
order. -/
theorem loopFrom_draft (n : Nat) (gen : Rec → Option String) :
    ∀ (as : List Rec) (i : Nat),
      (loopFrom n gen i as).filterMap evDraft = as.map gen := by
  intro as
  induction as with
  | nil => intro i; rfl
  | cons a rest ih =>
    intro i
    simp only [loopFrom, List.filterMap_append, List.map_cons]
    rw [recordEvents_draft, ih (i + 1)]
    rfl

/-- The loop tail starting at index `i` of `n` total records emits
`n - 1 - i` pacing delays. -/
theorem loopFrom_delay (n : Nat) (gen : Rec → Option String) :
    ∀ (as : List Rec) (i : Nat), i + as.length = n →
      (loopFrom n gen i as).countP isDelay = n - 1 - i := by
  intro as
  induction as with
  | nil =>
    intro i hi
    simp only [List.length_nil, Nat.add_zero] at hi
    simp [loopFrom]
    omega
  | cons a rest ih =>
    intro i hi
    simp only [List.length_cons] at hi
    simp only [loopFrom, List.countP_append]
    rw [recordEvents_delay, ih (i + 1) (by omega)]
    by_cases h : i < n - 1 <;> simp [h] <;> omega

/-- C5: for a surviving record list of size `N ≥ 1`, the per-record loop
emits exactly `N` `starting record i of N` status events and exactly `N`
per-record outcome blocks (header plus success/failure marker), both in
discovery order with matching 1-based indices, and exactly `N - 1`
pacing delays — one after every record except the last. -/
theorem c5_loop_events (as : List Rec) (gen : Rec → Option String)
    (_h : 1 ≤ as.length) :
    (mainLoop as gen).filterMap evStarting
        = as.enum.map (fun p => (p.1 + 1, as.length, p.2.title)) ∧
    (mainLoop as gen).filterMap evHeader
        = as.enum.map (fun p => (p.1 + 1, p.2.title, p.2.course)) ∧
    (mainLoop as gen).filterMap evDraft = as.map gen ∧
    (mainLoop as gen).countP isDelay = as.length - 1 := by
  refine ⟨?_, ?_, ?_, ?_⟩
  · simpa [mainLoop, List.enum] using loopFrom_starting as.length gen as 0
  · simpa [mainLoop, List.enum] using loopFrom_header as.length gen as 0
  · simpa [mainLoop] using loopFrom_draft as.length gen as 0
  · simpa [mainLoop] using loopFrom_delay as.length gen as 0 (by omega)

/-- First record of the C5 witness run. -/
def c5RecA : Rec :=
  { title := "Essay 1", course := "English", url := "u1", text := "t1", srcHref := "h1" }

/-- Second record of the C5 witness run. -/
def c5RecB : Rec :=
  { title := "Lab 2", course := "Bio", url := "u2", text := "t2", srcHref := "h2" }

/-- Generation oracle of the C5 witness run: the first record succeeds,
the second fails. -/
def c5Gen : Rec → Option String :=
  fun r => if r.title = "Essay 1" then some "draft one" else none

/-- Witness for C5 on a concrete two-record run. -/
theorem c5_loop_events_witness :
    1 ≤ ([c5RecA, c5RecB] : List Rec).length ∧
    ((mainLoop [c5RecA, c5RecB] c5Gen).filterMap evStarting
        = ([c5RecA, c5RecB] : List Rec).enum.map
            (fun p => (p.1 + 1, ([c5RecA, c5RecB] : List Rec).length, p.2.title)) ∧
      (mainLoop [c5RecA, c5RecB] c5Gen).filterMap evHeader
        = ([c5RecA, c5RecB] : List Rec).enum.map
            (fun p => (p.1 + 1, p.2.title, p.2.course)) ∧
      (mainLoop [c5RecA, c5RecB] c5Gen).filterMap evDraft
        = ([c5RecA, c5RecB] : List Rec).map c5Gen ∧
      (mainLoop [c5RecA, c5RecB] c5Gen).countP isDelay
        = ([c5RecA, c5RecB] : List Rec).length - 1) :=
  ⟨by decide, c5_loop_events [c5RecA, c5RecB] c5Gen (by decide)⟩

/-- C6: when the primary detail-link selector pass yields zero records,
`scanLiveTodo` retries with the secondary selector pass (over the
elements whose class or stream-item attribute suggests an assignment),
sharing the seen set; and when that pass also yields zero records, the
run reports the `No assignments found` status with its actionable hint
and performs no generation calls. -/
theorem c6_empty_fallback (loc : String) (anchors : List Anchor) (items : List Item)
    (gen : Rec → Option String)
    (hloc : locOk loc = true)
    (hp : (primaryPass (anchors.filter linkSel)).2 = []) :
    scanLiveTodo loc anchors items
        = some ((secondaryPass items (primaryPass (anchors.filter linkSel)).1).2) ∧
    ((secondaryPass items (primaryPass (anchors.filter linkSel)).1).2 = [] →
      mainAfterScan (scanLiveTodo loc anchors items) gen
          = [Ev.status noneFoundMsg, Ev.emptyHint] ∧
      (mainAfterScan (scanLiveTodo loc anchors items) gen).countP isGenCall = 0) := by
  have hscan : scanLiveTodo loc anchors items
      = some ((secondaryPass items (primaryPass (anchors.filter linkSel)).1).2) := by
    simp [scanLiveTodo, hloc, hp]
  refine ⟨hscan, ?_⟩
  intro hs
  rw [hscan, hs]
  exact ⟨by simp [mainAfterScan], by simp [mainAfterScan, isGenCall]⟩

/-- Anchor for the C6 witness: matched by the primary selector but
excluded by the APUSH classification rule, so the primary pass yields
zero records. -/
def c6Anchor : Anchor :=
  { href := some "/c/9/a/9/details", cardText := "APUSH LEQ practice" }

/-- Item for the C6 witness: its detail anchor carries the href already
seen (and excluded) by the primary pass. -/
def c6Item : Item :=
  { innerText := "APUSH LEQ practice", detail := some (some "/c/9/a/9/details") }

/-- Witness for C6: primary pass excludes everything, secondary pass is
blocked by the shared seen set, the run reports the empty result with no
generation calls. -/
theorem c6_empty_fallback_witness :
    locOk "/a/" = true ∧
    (primaryPass ([c6Anchor].filter linkSel)).2 = [] ∧
    (scanLiveTodo "/a/" [c6Anchor] [c6Item]
        = some ((secondaryPass [c6Item] (primaryPass ([c6Anchor].filter linkSel)).1).2) ∧
      ((secondaryPass [c6Item] (primaryPass ([c6Anchor].filter linkSel)).1).2 = [] →
        mainAfterScan (scanLiveTodo "/a/" [c6Anchor] [c6Item]) c5Gen
            = [Ev.status noneFoundMsg, Ev.emptyHint] ∧
        (mainAfterScan (scanLiveTodo "/a/" [c6Anchor] [c6Item]) c5Gen).countP isGenCall
            = 0)) :=
  ⟨by decide, by decide,
   c6_empty_fallback "/a/" [c6Anchor] [c6Item] c5Gen (by decide) (by decide)⟩

/-! ## Seen-set invariants of the extractor -/

/-- Invariant of the scan state relative to the seen set `s0` the pass
started from: the initial seen set is preserved, the raw hrefs of the
accumulated records are pairwise distinct, the href of every
accumulated record is in the current seen set, and no such href was in
the initial seen set. -/
def ScanInv (s0 : List String) (st : ScanState) : Prop :=
  (∀ h ∈ s0, h ∈ st.1) ∧
  (st.2.map Rec.srcHref).Nodup ∧
  (∀ r ∈ st.2, r.srcHref ∈ st.1) ∧
  (∀ r ∈ st.2, r.srcHref ∉ s0)

/-- Primary loop body, skip branch: an already-seen or
`not-turned-in`-tainted href leaves the state unchanged. -/
theorem primaryStep_skip (st : ScanState) (a : Anchor)
    (hc : (st.1.contains (a.href.getD "")
        || containsS (a.href.getD "") "not-turned-in") = true) :
    primaryStep st a = st := by
  simp only [primaryStep, hc]
  rfl

/-- Primary loop body, excluded branch: a fresh href of a record the
classification rules exclude is added to the seen set, no record is
pushed. -/
theorem primaryStep_excl (st : ScanState) (a : Anchor)
    (hc : (st.1.contains (a.href.getD "")
        || containsS (a.href.getD "") "not-turned-in") = false)
    (hs : shouldSkip (mkPrimaryRec a).title (mkPrimaryRec a).course = true) :
    primaryStep st a = (a.href.getD "" :: st.1, st.2) := by
  simp only [primaryStep, hc, hs]
  rfl

/-- Primary loop body, push branch: a fresh href of an included record
is added to the seen set and the record is pushed. -/
theorem primaryStep_push (st : ScanState) (a : Anchor)
    (hc : (st.1.contains (a.href.getD "")
        || containsS (a.href.getD "") "not-turned-in") = false)
    (hs : shouldSkip (mkPrimaryRec a).title (mkPrimaryRec a).course = false) :
    primaryStep st a = (a.href.getD "" :: st.1, st.2 ++ [mkPrimaryRec a]) := by
  simp only [primaryStep, hc, hs]
  rfl

/-- Secondary loop body: unchanged state when the item has no detail
anchor. -/
theorem secondaryStep_none (st : ScanState) (it : Item) (hd : it.detail = none) :
    secondaryStep st it = st := by
  simp only [secondaryStep, hd]

/-- Secondary loop body, stay branch: a seen href or an excluded record
leaves the state unchanged. -/
theorem secondaryStep_stay (st : ScanState) (it : Item) (hrefAttr : Option String)
    (hd : it.detail = some hrefAttr)
    (hc : (!st.1.contains (hrefAttr.getD "")
        && !shouldSkip (mkSecondaryRec it (hrefAttr.getD "")).title (jsTrim it.innerText))
        = false) :
    secondaryStep st it = st := by
  simp only [secondaryStep, hd, hc]
  rfl

/-- Secondary loop body, push branch: a fresh href of an included record
is added to the seen set and the record is pushed. -/
theorem secondaryStep_push (st : ScanState) (it : Item) (hrefAttr : Option String)
    (hd : it.detail = some hrefAttr)
    (hc : (!st.1.contains (hrefAttr.getD "")
        && !shouldSkip (mkSecondaryRec it (hrefAttr.getD "")).title (jsTrim it.innerText))
        = true) :
    secondaryStep st it
      = (hrefAttr.getD "" :: st.1, st.2 ++ [mkSecondaryRec it (hrefAttr.getD "")]) := by
  simp only [secondaryStep, hd, hc]
  rfl

/-- Extending the state with a fresh href and (possibly) a record built
on that href preserves the scan invariant; shared shape of all push and
exclusion branches. -/
theorem scanInv_extend (s0 : List String) (st : ScanState) (href : String)
    (newRecs : List Rec) (hlen : newRecs.length ≤ 1) (hmem : href ∉ st.1)
    (hnew : ∀ r ∈ newRecs, r.srcHref = href)
    (h : ScanInv s0 st) :
    ScanInv s0 (href :: st.1, st.2 ++ newRecs) := by
  obtain ⟨h1, h2, h3, h4⟩ := h
  refine ⟨fun x hx => List.mem_cons_of_mem _ (h1 x hx), ?_, fun r hr => ?_, fun r hr => ?_⟩
  · rw [List.map_append, List.nodup_append]
    refine ⟨h2, ?_, ?_⟩
    · rcases newRecs with _ | ⟨r, rest⟩
      · exact List.nodup_nil
      · rcases rest with _ | ⟨r2, rest2⟩
        · exact List.nodup_singleton _
        · simp at hlen
    · intro x hx hy
      obtain ⟨r, hr, hrx⟩ := List.mem_map.mp hx
      obtain ⟨r2, hr2, hry⟩ := List.mem_map.mp hy
      apply hmem
      have hx2 : x = href := by rw [← hry]; exact hnew r2 hr2
      rw [← hx2, ← hrx]
      exact h3 r hr
  · rcases List.mem_append.mp hr with hr | hr
    · exact List.mem_cons_of_mem _ (h3 r hr)
    · rw [hnew r hr]
      exact List.mem_cons_self _ _
  · rcases List.mem_append.mp hr with hr | hr
    · exact h4 r hr
    · rw [hnew r hr]
      intro hb
      exact hmem (h1 _ hb)

/-- The primary loop body preserves the scan invariant. -/
theorem primaryStep_inv (s0 : List String) (st : ScanState) (a : Anchor)
    (h : ScanInv s0 st) : ScanInv s0 (primaryStep st a) := by
  cases hc : (st.1.contains (a.href.getD "")
      || containsS (a.href.getD "") "not-turned-in") with
  | true => rw [primaryStep_skip st a hc]; exact h
  | false =>
    have hmem : a.href.getD "" ∉ st.1 := by
      rw [Bool.or_eq_false_iff] at hc
      simpa using hc.1
    cases hs : shouldSkip (mkPrimaryRec a).title (mkPrimaryRec a).course with
    | true =>
      rw [primaryStep_excl st a hc hs]
      have := scanInv_extend s0 st (a.href.getD "") [] (by simp) hmem (by simp) h
      simpa using this
    | false =>
      rw [primaryStep_push st a hc hs]
      exact scanInv_extend s0 st (a.href.getD "") [mkPrimaryRec a] (by simp) hmem
        (by intro r hr; simp at hr; subst hr; rfl) h

/-- The secondary loop body preserves the scan invariant. -/
theorem secondaryStep_inv (s0 : List String) (st : ScanState) (it : Item)
    (h : ScanInv s0 st) : ScanInv s0 (secondaryStep st it) := by
  cases hd : it.detail with
  | none => rw [secondaryStep_none st it hd]; exact h
  | some hrefAttr =>
    cases hc : (!st.1.contains (hrefAttr.getD "")
        && !shouldSkip (mkSecondaryRec it (hrefAttr.getD "")).title (jsTrim it.innerText)) with
    | false => rw [secondaryStep_stay st it hrefAttr hd hc]; exact h
    | true =>
      have hmem : hrefAttr.getD "" ∉ st.1 := by
        rw [Bool.and_eq_true] at hc
        have := hc.1
        rw [Bool.not_eq_true'] at this
        simpa using this
      rw [secondaryStep_push st it hrefAttr hd hc]
      exact scanInv_extend s0 st (hrefAttr.getD "") [mkSecondaryRec it (hrefAttr.getD "")]
        (by simp) hmem (by intro r hr; simp at hr; subst hr; rfl) h

/-- The primary fold preserves the scan invariant. -/
theorem primaryFold_inv (s0 : List String) :
    ∀ (links : List Anchor) (st : ScanState), ScanInv s0 st →
      ScanInv s0 (links.foldl primaryStep st) := by
  intro links
  induction links with
  | nil => intro st h; exact h
  | cons a rest ih =>
    intro st h
    exact ih (primaryStep st a) (primaryStep_inv s0 st a h)

/-- The secondary fold preserves the scan invariant. -/
theorem secondaryFold_inv (s0 : List String) :
    ∀ (items : List Item) (st : ScanState), ScanInv s0 st →
      ScanInv s0 (items.foldl secondaryStep st) := by
  intro items
  induction items with
  | nil => intro st h; exact h
  | cons it rest ih =>
    intro st h
    exact ih (secondaryStep st it) (secondaryStep_inv s0 st it h)

/-- The scan invariant holds at the start of the primary pass. -/
theorem primaryPass_inv (links : List Anchor) : ScanInv [] (primaryPass links) :=
  primaryFold_inv [] links ([], [])
    ⟨fun x hx => absurd hx (List.not_mem_nil x), List.nodup_nil,
     fun r hr => absurd hr (List.not_mem_nil r),
     fun r hr => absurd hr (List.not_mem_nil r)⟩

/-- The scan invariant holds along the secondary pass relative to the
seen set it inherits. -/
theorem secondaryPass_inv (items : List Item) (s0 : List String) :
    ScanInv s0 (secondaryPass items s0) :=
  secondaryFold_inv s0 items (s0, [])
    ⟨fun _ hx => hx, List.nodup_nil,
     fun r hr => absurd hr (List.not_mem_nil r),
     fun r hr => absurd hr (List.not_mem_nil r)⟩

/-- Processing an untainted anchor puts its raw href into the seen set,
whether the record is pushed, excluded, or the href had been seen. -/
theorem primaryStep_mem_self (st : ScanState) (a : Anchor)
    (ht : containsS (a.href.getD "") "not-turned-in" = false) :
    a.href.getD "" ∈ (primaryStep st a).1 := by
  cases hc : st.1.contains (a.href.getD "") with
  | true =>
    rw [primaryStep_skip st a (by rw [hc, ht]; rfl)]
    simpa using hc
  | false =>
    have hcond : (st.1.contains (a.href.getD "")
        || containsS (a.href.getD "") "not-turned-in") = false := by rw [hc, ht]; rfl
    cases hs : shouldSkip (mkPrimaryRec a).title (mkPrimaryRec a).course with
    | true => rw [primaryStep_excl st a hcond hs]; exact List.mem_cons_self _ _
    | false => rw [primaryStep_push st a hcond hs]; exact List.mem_cons_self _ _

/-- The seen set only grows along one primary step. -/
theorem primaryStep_seen_mono (st : ScanState) (a : Anchor) (x : String)
    (hx : x ∈ st.1) : x ∈ (primaryStep st a).1 := by
  cases hc : (st.1.contains (a.href.getD "")
      || containsS (a.href.getD "") "not-turned-in") with
  | true => rw [primaryStep_skip st a hc]; exact hx
  | false =>
    cases hs : shouldSkip (mkPrimaryRec a).title (mkPrimaryRec a).course with
    | true => rw [primaryStep_excl st a hc hs]; exact List.mem_cons_of_mem _ hx
    | false => rw [primaryStep_push st a hc hs]; exact List.mem_cons_of_mem _ hx

/-- The seen set only grows along the primary fold. -/
theorem primaryFold_seen_mono :
    ∀ (links : List Anchor) (st : ScanState) (x : String), x ∈ st.1 →
      x ∈ (links.foldl primaryStep st).1 := by
  intro links
  induction links with
  | nil => intro st x hx; exact hx
  | cons a rest ih =>
    intro st x hx
    exact ih (primaryStep st a) x (primaryStep_seen_mono st a x hx)

/-- Every iterated anchor whose href is not `not-turned-in`-tainted ends
up in the seen set of the primary fold — already-seen, excluded and
pushed hrefs alike, because the href is added before the exclusion
check. -/
theorem primaryFold_mem_of_link :
    ∀ (links : List Anchor) (st : ScanState) (a : Anchor), a ∈ links →
      containsS (a.href.getD "") "not-turned-in" = false →
      a.href.getD "" ∈ (links.foldl primaryStep st).1 := by
  intro links
  induction links with
  | nil => intro st a ha; exact absurd ha (List.not_mem_nil a)
  | cons b rest ih =>
    intro st a ha ht
    rcases List.mem_cons.mp ha with hab | ha2
    · subst hab
      exact primaryFold_seen_mono rest (primaryStep st a) _
        (primaryStep_mem_self st a ht)
    · exact ih (primaryStep st b) a ha2 ht

/-- Characterization of a successful `scanLiveTodo` result: it is the
primary-pass record list, or the primary pass was empty and it is the
secondary-pass record list over the inherited seen set. -/
theorem scanLiveTodo_eq (loc : String) (anchors : List Anchor) (items : List Item)
    (recs : List Rec) (h : scanLiveTodo loc anchors items = some recs) :
    recs = (primaryPass (anchors.filter linkSel)).2 ∨
    ((primaryPass (anchors.filter linkSel)).2 = [] ∧
      recs = (secondaryPass items (primaryPass (anchors.filter linkSel)).1).2) := by
  unfold scanLiveTodo at h
  split at h
  · injection h with h
    split at h
    · right
      refine ⟨?_, h.symm⟩
      rename_i hc
      rw [beq_iff_eq] at hc
      exact List.length_eq_zero.mp hc
    · left
      exact h.symm
  · exact Option.noConfusion h

/-- Anchor of the C2 counterexample carrying the relative form of the
reference. -/
def c2Anchor1 : Anchor :=
  { href := some "/c/1/a/2/details", cardText := "Chapter 5 Reading Response" }

/-- Anchor of the C2 counterexample carrying the absolute form of the
same reference. -/
def c2Anchor2 : Anchor :=
  { href := some "https://classroom.google.com/c/1/a/2/details",
    cardText := "Chapter 5 Reading Response" }

/-- C2 counterexample: two extracted links (both matching the primary
selector) whose references normalize to the same absolute form produce
two records, not one, and the reference field is not unique across the
returned list — the dedup set keys on the raw href, which differs
between the relative and the absolute form. -/
theorem c2_counterexample :
    linkSel c2Anchor1 = true ∧ linkSel c2Anchor2 = true ∧
    ((scanLiveTodo "/a/not-turned-in" [c2Anchor1, c2Anchor2] []).getD []).map Rec.url
      = ["https://classroom.google.com/c/1/a/2/details",
         "https://classroom.google.com/c/1/a/2/details"] ∧
    ((scanLiveTodo "/a/not-turned-in" [c2Anchor1, c2Anchor2] []).getD []).length = 2 ∧
    ¬ (((scanLiveTodo "/a/not-turned-in" [c2Anchor1, c2Anchor2] []).getD []).map
        Rec.url).Nodup := by
  refine ⟨by decide, by decide, by decide, by decide, by decide⟩

/-- C2 amended: within one extraction pass the deduplication key is the
raw href string, not the normalized absolute reference — the raw hrefs
of the produced records are pairwise distinct (two links with the same
raw href produce one record), while links with distinct raw hrefs whose
references normalize to the same absolute form may each produce a
record. -/
theorem c2_amended (loc : String) (anchors : List Anchor) (items : List Item)
    (recs : List Rec) (h : scanLiveTodo loc anchors items = some recs) :
    (recs.map Rec.srcHref).Nodup := by
  rcases scanLiveTodo_eq loc anchors items recs h with h2 | ⟨_, h2⟩
  · rw [h2]
    exact (primaryPass_inv (anchors.filter linkSel)).2.1
  · rw [h2]
    exact (secondaryPass_inv items (primaryPass (anchors.filter linkSel)).1).2.1

/-- First record of the C2 run (from the relative href). -/
def c2RecA : Rec :=
  { title := "Chapter 5 Reading Response", course := "",
    url := "https://classroom.google.com/c/1/a/2/details",
    text := "Chapter 5 Reading Response", srcHref := "/c/1/a/2/details" }

/-- Second record of the C2 run (from the absolute href). -/
def c2RecB : Rec :=
  { title := "Chapter 5 Reading Response", course := "",
    url := "https://classroom.google.com/c/1/a/2/details",
    text := "Chapter 5 Reading Response",
    srcHref := "https://classroom.google.com/c/1/a/2/details" }

/-- Witness for the amended C2 on the counterexample run: the two
records have equal normalized references but distinct raw hrefs, and the
raw hrefs are indeed pairwise distinct. -/
theorem c2_amended_witness :
    scanLiveTodo "/a/not-turned-in" [c2Anchor1, c2Anchor2] [] = some [c2RecA, c2RecB] ∧
    (([c2RecA, c2RecB] : List Rec).map Rec.srcHref).Nodup :=
  ⟨by decide,
   c2_amended "/a/not-turned-in" [c2Anchor1, c2Anchor2] [] [c2RecA, c2RecB] (by decide)⟩

/-- C10: across one extraction call the raw href keys of the produced
records are pairwise distinct (one shared seen set serves both selector
passes), and because an href is added to the seen set before the
exclusion check, a selector-matched untainted link that the primary pass
excluded by filtering can never be re-added as a record by the secondary
pass. -/
theorem c10_seen_set (loc : String) (anchors : List Anchor) (items : List Item)
    (recs : List Rec) (h : scanLiveTodo loc anchors items = some recs) :
    (recs.map Rec.srcHref).Nodup ∧
    (∀ a ∈ anchors, linkSel a = true →
      containsS (a.href.getD "") "not-turned-in" = false →
      shouldSkip (mkPrimaryRec a).title (mkPrimaryRec a).course = true →
      ∀ r ∈ (secondaryPass items (primaryPass (anchors.filter linkSel)).1).2,
        r.srcHref ≠ a.href.getD "") := by
  constructor
  · rcases scanLiveTodo_eq loc anchors items recs h with h2 | ⟨_, h2⟩
    · rw [h2]
      exact (primaryPass_inv (anchors.filter linkSel)).2.1
    · rw [h2]
      exact (secondaryPass_inv items (primaryPass (anchors.filter linkSel)).1).2.1
  · intro a ha hsel ht _hs r hr heq
    have hseen : a.href.getD "" ∈ (primaryPass (anchors.filter linkSel)).1 :=
      primaryFold_mem_of_link (anchors.filter linkSel) ([], []) a
        (List.mem_filter.mpr ⟨ha, hsel⟩) ht
    have hnotin :=
      (secondaryPass_inv items (primaryPass (anchors.filter linkSel)).1).2.2.2 r hr
    exact hnotin (heq ▸ hseen)

/-- Anchor of the C10 witness: selector-matched, untainted, and excluded
by the classification rules. -/
def c10Anchor : Anchor :=
  { href := some "/c/3/a/4/details", cardText := "AP US History DBQ essay" }

/-- Item of the C10 witness: its detail anchor carries the href the
primary pass already consumed while excluding the record. -/
def c10Item : Item :=
  { innerText := "AP US History DBQ essay", detail := some (some "/c/3/a/4/details") }

/-- Witness for C10: the excluded href is blocked from the secondary
pass by the shared seen set, so the scan returns no records at all. -/
theorem c10_seen_set_witness :
    scanLiveTodo "/a/" [c10Anchor] [c10Item] = some [] ∧
    ((([] : List Rec).map Rec.srcHref).Nodup ∧
      (∀ a ∈ [c10Anchor], linkSel a = true →
        containsS (a.href.getD "") "not-turned-in" = false →
        shouldSkip (mkPrimaryRec a).title (mkPrimaryRec a).course = true →
        ∀ r ∈ (secondaryPass [c10Item] (primaryPass ([c10Anchor].filter linkSel)).1).2,
          r.srcHref ≠ a.href.getD "")) :=
  ⟨by decide, c10_seen_set "/a/" [c10Anchor] [c10Item] [] (by decide)⟩

/-- A record in the state after one primary step was already there or
was built from the processed anchor. -/
theorem primaryStep_recs (st : ScanState) (a : Anchor) (r : Rec)
    (hr : r ∈ (primaryStep st a).2) : r ∈ st.2 ∨ r = mkPrimaryRec a := by
  cases hc : (st.1.contains (a.href.getD "")
      || containsS (a.href.getD "") "not-turned-in") with
  | true => rw [primaryStep_skip st a hc] at hr; exact Or.inl hr
  | false =>
    cases hs : shouldSkip (mkPrimaryRec a).title (mkPrimaryRec a).course with
    | true => rw [primaryStep_excl st a hc hs] at hr; exact Or.inl hr
    | false =>
      rw [primaryStep_push st a hc hs] at hr
      rcases List.mem_append.mp hr with h2 | h2
      · exact Or.inl h2
      · exact Or.inr (List.mem_singleton.mp h2)

/-- A record in the state after one secondary step was already there or
was built from the processed item and its detail href. -/
theorem secondaryStep_recs (st : ScanState) (it : Item) (r : Rec)
    (hr : r ∈ (secondaryStep st it).2) :
    r ∈ st.2 ∨
    ∃ hrefAttr, it.detail = some hrefAttr ∧ r = mkSecondaryRec it (hrefAttr.getD "") := by
  cases hd : it.detail with
  | none => rw [secondaryStep_none st it hd] at hr; exact Or.inl hr
  | some hrefAttr =>
    cases hc : (!st.1.contains (hrefAttr.getD "")
        && !shouldSkip (mkSecondaryRec it (hrefAttr.getD "")).title (jsTrim it.innerText)) with
    | false => rw [secondaryStep_stay st it hrefAttr hd hc] at hr; exact Or.inl hr
    | true =>
      rw [secondaryStep_push st it hrefAttr hd hc] at hr
      rcases List.mem_append.mp hr with h2 | h2
      · exact Or.inl h2
      · exact Or.inr ⟨hrefAttr, rfl, List.mem_singleton.mp h2⟩

/-- Provenance along the primary fold: every accumulated record was in
the initial state or was built from one of the iterated anchors. -/
theorem primaryFold_recs :
    ∀ (links : List Anchor) (st : ScanState) (r : Rec),
      r ∈ (links.foldl primaryStep st).2 →
      r ∈ st.2 ∨ ∃ a ∈ links, r = mkPrimaryRec a := by
  intro links
  induction links with
  | nil => intro st r hr; exact Or.inl hr
  | cons a rest ih =>
    intro st r hr
    rcases ih (primaryStep st a) r hr with h2 | ⟨b, hb, h2⟩
    · rcases primaryStep_recs st a r h2 with h3 | h3
      · exact Or.inl h3
      · exact Or.inr ⟨a, List.mem_cons_self a rest, h3⟩
    · exact Or.inr ⟨b, List.mem_cons_of_mem a hb, h2⟩

/-- Provenance along the secondary fold. -/
theorem secondaryFold_recs :
    ∀ (items : List Item) (st : ScanState) (r : Rec),
      r ∈ (items.foldl secondaryStep st).2 →
      r ∈ st.2 ∨
      ∃ it ∈ items, ∃ hrefAttr, it.detail = some hrefAttr ∧
        r = mkSecondaryRec it (hrefAttr.getD "") := by
  intro items
  induction items with
  | nil => intro st r hr; exact Or.inl hr
  | cons it rest ih =>
    intro st r hr
    rcases ih (secondaryStep st it) r hr with h2 | ⟨jt, hjt, h2⟩
    · rcases secondaryStep_recs st it r h2 with h3 | ⟨hrefAttr, hd, h3⟩
      · exact Or.inl h3
      · exact Or.inr ⟨it, List.mem_cons_self it rest, hrefAttr, hd, h3⟩
    · exact Or.inr ⟨jt, List.mem_cons_of_mem it hjt, h2⟩

/-- The title law of a primary-pass record: the first line of its text
whose trimmed length exceeds 3 (the lines being trimmed in this pass),
or the placeholder `"Unknown"` when no such line exists. -/
def titleSpecP (r : Rec) : Prop :=
  (linesP r.text = [] ∧ r.title = "Unknown") ∨
  (∃ l rest, linesP r.text = l :: rest ∧ r.title = l)

/-- The title law of a secondary-pass record: the first raw line of its
text whose trimmed length exceeds 3, or the placeholder `"Unknown"`. -/
def titleSpecS (r : Rec) : Prop :=
  (linesS r.text = [] ∧ r.title = "Unknown") ∨
  (∃ l rest, linesS r.text = l :: rest ∧ r.title = l)

/-- A member of the primary-pass line list is longer than 3 characters
and is trim-stable. -/
theorem linesP_mem (text : String) (l : String) (hl : l ∈ linesP text) :
    l.length > 3 ∧ jsTrim l = l := by
  unfold linesP at hl
  obtain ⟨hmem, hlen⟩ := List.mem_filter.mp hl
  constructor
  · simpa using hlen
  · obtain ⟨y, _, hly⟩ := List.mem_map.mp hmem
    rw [← hly]
    show String.mk (trimList (trimList y)) = String.mk (trimList y)
    rw [trimList_trimList]

/-- A member of the secondary-pass line list has trimmed length longer
than 3 characters. -/
theorem linesS_mem (text : String) (l : String) (hl : l ∈ linesS text) :
    (jsTrim l).length > 3 := by
  unfold linesS at hl
  simpa using (List.mem_filter.mp hl).2

/-- Titles of primary-pass records are non-empty after trimming and obey
the primary title law. -/
theorem mkPrimaryRec_title (a : Anchor) :
    jsTrim (mkPrimaryRec a).title ≠ "" ∧ titleSpecP (mkPrimaryRec a) := by
  have htext : linesP (mkPrimaryRec a).text = linesP (jsTrim a.cardText) := rfl
  have htitle : (mkPrimaryRec a).title
      = jsOrStr ((linesP (jsTrim a.cardText)).getD 0 "") "Unknown" := rfl
  cases hlines : linesP (jsTrim a.cardText) with
  | nil =>
    have ht2 : (mkPrimaryRec a).title = "Unknown" := by
      rw [htitle, hlines]; rfl
    refine ⟨by rw [ht2]; decide, Or.inl ⟨by rw [htext, hlines], ht2⟩⟩
  | cons l rest =>
    have hlmem : l ∈ linesP (jsTrim a.cardText) := by
      rw [hlines]; exact List.mem_cons_self _ _
    obtain ⟨hlen, htrim⟩ := linesP_mem _ l hlmem
    have hlne : l ≠ "" := by
      intro he
      rw [he] at hlen
      exact absurd hlen (by decide)
    have ht2 : (mkPrimaryRec a).title = l := by
      rw [htitle, hlines]
      show jsOrStr l "Unknown" = l
      unfold jsOrStr
      rw [if_neg hlne]
    refine ⟨?_, Or.inr ⟨l, rest, by rw [htext, hlines], ht2⟩⟩
    rw [ht2, htrim]
    exact hlne

/-- Titles of secondary-pass records are non-empty after trimming and
obey the secondary title law. -/
theorem mkSecondaryRec_title (it : Item) (href : String) :
    jsTrim (mkSecondaryRec it href).title ≠ "" ∧ titleSpecS (mkSecondaryRec it href) := by
  have htext : linesS (mkSecondaryRec it href).text = linesS (jsTrim it.innerText) := rfl
  have htitle : (mkSecondaryRec it href).title
      = jsOrStr ((linesS (jsTrim it.innerText)).getD 0 "") "Unknown" := rfl
  cases hlines : linesS (jsTrim it.innerText) with
  | nil =>
    have ht2 : (mkSecondaryRec it href).title = "Unknown" := by
      rw [htitle, hlines]; rfl
    refine ⟨by rw [ht2]; decide, Or.inl ⟨by rw [htext, hlines], ht2⟩⟩
  | cons l rest =>
    have hlmem : l ∈ linesS (jsTrim it.innerText) := by
      rw [hlines]; exact List.mem_cons_self _ _
    have hlen := linesS_mem _ l hlmem
    have htne : jsTrim l ≠ "" := by
      intro he
      rw [he] at hlen
      exact absurd hlen (by decide)
    have hlne : l ≠ "" := by
      intro he
      rw [he] at htne
      exact htne (by decide)
    have ht2 : (mkSecondaryRec it href).title = l := by
      rw [htitle, hlines]
      show jsOrStr l "Unknown" = l
      unfold jsOrStr
      rw [if_neg hlne]
    refine ⟨by rw [ht2]; exact htne, Or.inr ⟨l, rest, by rw [htext, hlines], ht2⟩⟩

/-- Anchor of the C8 counterexample: its card text has no line whose
trimmed length exceeds the triviality threshold. -/
def c8Anchor : Anchor := { href := some "/c/7/a/8/details", cardText := "ok\nhi" }

/-- The record the C8 counterexample run produces. -/
def c8Rec : Rec :=
  { title := "Unknown", course := "",
    url := "https://classroom.google.com/c/7/a/8/details",
    text := "ok\nhi", srcHref := "/c/7/a/8/details" }

/-- C8 counterexample: a record is produced whose card text has no
non-trivial line at all (in the sense of either pass), so its title is the
fixed placeholder `"Unknown"` rather than "the first line whose trimmed
length exceeds the triviality threshold", which does not exist. -/
theorem c8_counterexample :
    scanLiveTodo "/a/" [c8Anchor] [] = some [c8Rec] ∧
    c8Rec.title = "Unknown" ∧
    linesP c8Rec.text = [] ∧ linesS c8Rec.text = [] := by
  refine ⟨by decide, by decide, by decide, by decide⟩

/-- C8 amended: the title of every produced record is non-empty after
trimming, and it equals the first non-trivial line of the extracted
text when such a line exists (the line being trimmed in the
primary pass and kept raw in the secondary pass), and the placeholder
`"Unknown"` otherwise. -/
theorem c8_amended (loc : String) (anchors : List Anchor) (items : List Item)
    (recs : List Rec) (h : scanLiveTodo loc anchors items = some recs) :
    ∀ r ∈ recs, jsTrim r.title ≠ "" ∧ (titleSpecP r ∨ titleSpecS r) := by
  intro r hr
  rcases scanLiveTodo_eq loc anchors items recs h with h2 | ⟨_, h2⟩
  · rw [h2] at hr
    rcases primaryFold_recs (anchors.filter linkSel) ([], []) r hr with h3 | ⟨a, _, h3⟩
    · exact absurd h3 (List.not_mem_nil r)
    · subst h3
      obtain ⟨hne, hspec⟩ := mkPrimaryRec_title a
      exact ⟨hne, Or.inl hspec⟩
  · rw [h2] at hr
    rcases secondaryFold_recs items ((primaryPass (anchors.filter linkSel)).1, ([] : List Rec)) r hr with
      h3 | ⟨it, _, hrefAttr, _, h3⟩
    · exact absurd h3 (List.not_mem_nil r)
    · subst h3
      obtain ⟨hne, hspec⟩ := mkSecondaryRec_title it (hrefAttr.getD "")
      exact ⟨hne, Or.inr hspec⟩

/-- Anchor of the C8 amended-claim witness: a card with a padded first
line and a period-labelled course line. -/
def c8WAnchor : Anchor :=
  { href := some "/c/5/a/6/details",
    cardText := "  Poetry Analysis Essay \nPeriod 2 English" }

/-- The record the C8 witness run produces. -/
def c8WRec : Rec :=
  { title := "Poetry Analysis Essay", course := "Period 2 English",
    url := "https://classroom.google.com/c/5/a/6/details",
    text := "Poetry Analysis Essay \nPeriod 2 English", srcHref := "/c/5/a/6/details" }

/-- Witness for the amended C8 on a concrete run with a real title. -/
theorem c8_amended_witness :
    scanLiveTodo "/a/" [c8WAnchor] [] = some [c8WRec] ∧
    (∀ r ∈ [c8WRec], jsTrim r.title ≠ "" ∧ (titleSpecP r ∨ titleSpecS r)) :=
  ⟨by decide, c8_amended "/a/" [c8WAnchor] [] [c8WRec] (by decide)⟩

end StudyFlow
